import Mathlib

/-!
Shallow embedding of the FUBARN Bluetooth mesh light controller
(`urbarn_mesh_controller.py`): advertisement filtering and deduplication,
characteristic discovery and classification, the three authentication
strategies, command dispatch, group management and JSON persistence.

Transport writes are modelled by an oracle `WOk : String → List Nat → Bool`
(uuid, payload ↦ "write did not raise"), and the AES block cipher of the
external cryptography library by an abstract block function; every other
definition is translated directly from the Python source.  Each execution
additionally produces the list of transport writes it attempted, so that
ordering and "no write happened" properties can be stated.
-/

namespace Fubarn

/-! ### Character-list helpers (Python `in` on strings, `.lower()`) -/

/-- `startsWithCh pat l` : `pat` is an initial segment of `l`. -/
def startsWithCh : List Char → List Char → Bool
  | [], _ => true
  | _ :: _, [] => false
  | a :: as, b :: bs => a == b && startsWithCh as bs

/-- `containsSub pat l` : Python `pat in l` substring test on char lists. -/
def containsSub (pat : List Char) : List Char → Bool
  | [] => startsWithCh pat []
  | b :: bs => startsWithCh pat (b :: bs) || containsSub pat bs

/-- Python `str.lower()` on the characters of a string. -/
def lowerStr (s : String) : List Char := s.data.map Char.toLower

/-- UTF-8 encoding of a string as byte values; for the ASCII credential and
marker strings this program uses, each character is one byte, its code point. -/
def utf8Bytes (s : String) : List Nat := s.data.map Char.toNat

/-! ### Scanner (`scan_for_urbarn_devices` / `detection_callback`) -/

/-- The fields of a `BLEDevice` that `detection_callback` reads.  `BLEDevice`
defines no `__eq__`, so Python list membership on these compares object
identity; the scanner backend (bleak ≥ 0.19, pinned by the
`advertisement_data.rssi` access) keeps one `BLEDevice` instance per address
within a scan and updates it in place, so object identity coincides with
address equality. -/
structure BLEDev where
  address : String
  name : Option String
deriving DecidableEq, Repr

/-- One advertisement event delivered to `detection_callback`. -/
structure AdvEvent where
  device : BLEDev
  serviceUuids : List String
  rssi : Option Int
deriving DecidableEq, Repr

/-- `device_patterns` from `scan_for_urbarn_devices`. -/
def devicePatterns : List String := ["URBARN", "Fulife", "Mesh", "Light", "BT", "LED"]

/-- `MESH_SERVICE_UUIDS` class constant. -/
def MESH_SERVICE_UUIDS : List String :=
  [ "00001827-0000-1000-8000-00805f9b34fb"
  , "00001828-0000-1000-8000-00805f9b34fb"
  , "0000fe59-0000-1000-8000-00805f9b34fb"
  , "000016fe-0000-1000-8000-00805f9b34fb" ]

/-- `device.name or "Unknown"`: Python `or` also replaces the empty string. -/
def deviceDisplayName (d : BLEDev) : String :=
  match d.name with
  | none => "Unknown"
  | some s => if s = "" then "Unknown" else s

/-- Name-pattern check: `pattern.lower() in device_name.lower()`. -/
def nameMatches (d : BLEDev) : Bool :=
  devicePatterns.any (fun p => containsSub (lowerStr p) (lowerStr (deviceDisplayName d)))

/-- Service-UUID check: `service_uuid in advertisement_data.service_uuids`. -/
def serviceMatches (a : AdvEvent) : Bool :=
  MESH_SERVICE_UUIDS.any (fun u => a.serviceUuids.contains u)

/-- `advertisement_data.rssi and advertisement_data.rssi > -60`
(`None` and `0` are falsy in Python). -/
def strongSignal (a : AdvEvent) : Bool :=
  match a.rssi with
  | none => false
  | some r => decide (r ≠ 0) && decide (-60 < r)

/-- The acceptance heuristic of `detection_callback`. -/
def isUrbarnDevice (a : AdvEvent) : Bool :=
  if nameMatches a.device then true
  else if serviceMatches a then true
  else strongSignal a && !a.serviceUuids.isEmpty

/-- One `detection_callback` invocation acting on `self.discovered_devices`:
accepted devices are appended unless `device not in self.discovered_devices`
fails.  The membership test compares `BLEDevice` object identity, which —
with one scanner-owned instance per address (see `BLEDev`) — is address
equality. -/
def detectionCallback (acc : List BLEDev) (a : AdvEvent) : List BLEDev :=
  if isUrbarnDevice a then
    if acc.any (fun d => d.address == a.device.address) then acc
    else acc ++ [a.device]
  else acc

/-- A whole scan pass: `self.discovered_devices = []` then the callback is
run on each advertisement in arrival order. -/
def scanFold (advs : List AdvEvent) : List BLEDev :=
  advs.foldl detectionCallback []

/-! ### Characteristic discovery (`_discover_characteristics`) -/

/-- The fields of a GATT characteristic the controller reads. -/
structure GattChar where
  uuid : String
  properties : List String
deriving DecidableEq, Repr

/-- `self.device_characteristics[addr]`: a Python dict modelled as an
insertion-ordered association list. -/
abbrev Catalog := List (String × GattChar)

/-- Python-dict assignment `d[k] = v`: overwrite in place if the key exists,
else append. -/
def dictInsert {α : Type} (d : List (String × α)) (k : String) (v : α) :
    List (String × α) :=
  if d.any (fun p => p.1 == k) then
    d.map (fun p => if p.1 == k then (k, v) else p)
  else d ++ [(k, v)]

/-- `MESH_CHAR_UUIDS` class constant. -/
def MESH_CHAR_UUIDS : List String :=
  [ "00002a04-0000-1000-8000-00805f9b34fb"
  , "00002a05-0000-1000-8000-00805f9b34fb"
  , "6e400002-b5a3-f393-e0a9-e50e24dcca9e"
  , "6e400003-b5a3-f393-e0a9-e50e24dcca9e"
  , "0000fff1-0000-1000-8000-00805f9b34fb"
  , "0000fff2-0000-1000-8000-00805f9b34fb"
  , "0000fff3-0000-1000-8000-00805f9b34fb"
  , "0000fff4-0000-1000-8000-00805f9b34fb" ]

/-- Does the characteristic advertise write capability? -/
def hasWriteProp (c : GattChar) : Bool :=
  c.properties.contains "write" || c.properties.contains "write-without-response"

/-- Does the characteristic advertise notify/indicate capability? -/
def hasNotifyProp (c : GattChar) : Bool :=
  c.properties.contains "notify" || c.properties.contains "indicate"

/-- The mesh-UUID store of `_discover_characteristics`: a characteristic
whose uuid contains a known mesh UUID (case-insensitively) is stored under
its raw uuid. -/
def classifyMesh (d : Catalog) (c : GattChar) : Catalog :=
  if MESH_CHAR_UUIDS.any (fun u => containsSub (lowerStr u) (lowerStr c.uuid)) then
    dictInsert d c.uuid c
  else d

/-- The writable store: write-capable characteristics are stored under
`"writable_" + uuid`. -/
def classifyWrite (d : Catalog) (c : GattChar) : Catalog :=
  if hasWriteProp c then dictInsert d ("writable_" ++ c.uuid) c else d

/-- The notification store: notify/indicate characteristics are stored under
`"notify_" + uuid`. -/
def classifyNotify (d : Catalog) (c : GattChar) : Catalog :=
  if hasNotifyProp c then dictInsert d ("notify_" ++ c.uuid) c else d

/-- The three classification stores of `_discover_characteristics` for one
characteristic, applied in source order. -/
def classifyChar (d : Catalog) (c : GattChar) : Catalog :=
  classifyNotify (classifyWrite (classifyMesh d c) c) c

/-- `_discover_characteristics`, over the flattened characteristic list of all
services, starting from the fresh empty dict. -/
def discoverCharacteristics (chars : List GattChar) : Catalog :=
  chars.foldl classifyChar []

/-! ### Transport writes as an observable trace -/

/-- Which phase issued a write. -/
inductive WKind where
  | auth
  | cmd
deriving DecidableEq, Repr

/-- One attempted `client.write_gatt_char(characteristic, payload)` call,
with the catalog key the loop selected it under. -/
structure WriteEv where
  kind : WKind
  charKey : String
  uuid : String
  payload : List Nat
deriving DecidableEq, Repr

/-- Write oracle: `wok uuid payload = true` iff that write call returns
without raising. -/
abbrev WOk := String → List Nat → Bool

/-- The `"writable" in char_key` filter used by every write loop. -/
def keyWritable (k : String) : Bool :=
  containsSub ("writable".data) k.data

/-- Entries the write loops select. -/
def writableEntries (cat : Catalog) : Catalog :=
  cat.filter (fun p => keyWritable p.1)

/-- A `try:` block writing `payloads` in order to one characteristic: stops at
the first raising write (reporting failure), succeeds when all writes land. -/
def writeSeq (kind : WKind) (wok : WOk) (key uuid : String) :
    List (List Nat) → Bool × List WriteEv
  | [] => (true, [])
  | p :: ps =>
    if wok uuid p then
      let r := writeSeq kind wok key uuid ps
      (r.1, ⟨kind, key, uuid, p⟩ :: r.2)
    else (false, [⟨kind, key, uuid, p⟩])

/-- The common loop shape of the auth methods and the command dispatcher:
iterate the catalog, attempt only `"writable"`-keyed entries, stop at the
first attempt that reports success. -/
def loopEntries (attempt : String × GattChar → Bool × List WriteEv) :
    Catalog → Bool × List WriteEv
  | [] => (false, [])
  | e :: rest =>
    if keyWritable e.1 then
      let r := attempt e
      if r.1 then r
      else
        let s := loopEntries attempt rest
        (s.1, r.2 ++ s.2)
    else loopEntries attempt rest

/-! ### Authentication strategies -/

/-- A mesh credential pair. -/
structure Creds where
  name : String
  password : String
deriving DecidableEq, Repr

/-- `MESH_CREDENTIALS['primary']`. -/
def primaryCreds : Creds := ⟨"URBARN", "15102"⟩

/-- `MESH_CREDENTIALS['secondary']`. -/
def secondaryCreds : Creds := ⟨"Fulife", "2846"⟩

/-- Method 1, format 1: `f"{mesh_name}:{mesh_password}".encode('utf-8')`. -/
def method1Payload1 (name pwd : String) : List Nat :=
  utf8Bytes (name ++ ":" ++ pwd)

/-- Method 1, format 2: `struct.pack('<{n}s{m}s', name, password)` with exact
field widths, i.e. the two byte strings concatenated. -/
def method1Payload2 (name pwd : String) : List Nat :=
  utf8Bytes name ++ utf8Bytes pwd

/-- `_auth_method_1`: per writable characteristic, both credential formats. -/
def authMethod1 (wok : WOk) (cat : Catalog) (name pwd : String) :
    Bool × List WriteEv :=
  loopEntries (fun e =>
    writeSeq .auth wok e.1 e.2.uuid [method1Payload1 name pwd, method1Payload2 name pwd]) cat

/-- `_auth_method_2`'s `login_sequence`. -/
def loginSequence (name pwd : String) : List (List Nat) :=
  [[0x01, 0x02], utf8Bytes name, utf8Bytes pwd, [0x03, 0x04]]

/-- `_auth_method_2`: per writable characteristic, the 4-part framed
sequence. -/
def authMethod2 (wok : WOk) (cat : Catalog) (name pwd : String) :
    Bool × List WriteEv :=
  loopEntries (fun e => writeSeq .auth wok e.1 e.2.uuid (loginSequence name pwd)) cat

/-- `AES_KEY` class constant (32 bytes). -/
def AES_KEY : List Nat :=
  [0xd5, 0x71, 0xf6, 0xc5, 0x85, 0x12, 0x65, 0xbc,
   0xd5, 0xbb, 0x68, 0x4a, 0xa9, 0x37, 0xaa, 0x7c,
   0x3d, 0xf7, 0x6f, 0xfc, 0xe7, 0xfb, 0x11, 0x25,
   0x0b, 0xa2, 0x92, 0xd6, 0x31, 0x94, 0xd6, 0x77]

/-- `AES_IV` class constant (16 bytes). -/
def AES_IV : List Nat :=
  [0xa9, 0x18, 0x18, 0xdb, 0x06, 0x62, 0x16, 0x50,
   0x1c, 0xaa, 0xd4, 0x1d, 0x59, 0x82, 0xe6, 0x38]

/-- `padding.PKCS7(128)`: pad to a multiple of the 16-byte block size. -/
def pkcs7Pad (data : List Nat) : List Nat :=
  let n := 16 - data.length % 16
  data ++ List.replicate n n

/-- Split a byte list into 16-byte blocks; the fuel argument (any bound on
the number of blocks, here the length) makes the recursion structural. -/
def chunks16Fuel : Nat → List Nat → List (List Nat)
  | 0, _ => []
  | _, [] => []
  | fuel + 1, a :: as => (a :: as).take 16 :: chunks16Fuel fuel ((a :: as).drop 16)

/-- Split a byte list into 16-byte blocks. -/
def chunks16 (l : List Nat) : List (List Nat) :=
  chunks16Fuel l.length l

/-- CBC chaining over an abstract block cipher `E key block`. -/
def cbcBlocks (E : List Nat → List Nat → List Nat) (key : List Nat) :
    List Nat → List (List Nat) → List (List Nat)
  | _, [] => []
  | prev, b :: bs =>
    let c := E key (List.zipWith (fun x y => x ^^^ y) prev b)
    c :: cbcBlocks E key c bs

/-- `modes.CBC`: encrypt the 16-byte blocks of `data`, chained from `iv`. -/
def cbcEncrypt (E : List Nat → List Nat → List Nat) (key iv data : List Nat) :
    List Nat :=
  (cbcBlocks E key iv (chunks16 data)).flatten

/-- `_auth_method_3`: encrypted credential payload under the fixed key/IV; an
unavailable cryptography library (`cryptoAvail = false`, the `ImportError`
branch) performs no write and reports `False`.  The external AES primitive is
the abstract block function `E`. -/
def authMethod3 (cryptoAvail : Bool) (E : List Nat → List Nat → List Nat)
    (wok : WOk) (cat : Catalog) (name pwd : String) : Bool × List WriteEv :=
  if cryptoAvail then
    let payload := utf8Bytes (name ++ ":" ++ pwd)
    let ct := cbcEncrypt E (AES_KEY.take 32) (AES_IV.take 16) (pkcs7Pad payload)
    loopEntries (fun e => writeSeq .auth wok e.1 e.2.uuid [ct]) cat
  else (false, [])

/-! ### Controller BLE state and `authenticate_with_mesh` -/

/-- The per-device maps of the controller that the BLE pipeline touches.
`authenticatedDevices` holds the keys of `self.authenticated_devices` (the
dict only ever stores `True`). -/
structure CtrlState where
  connected : List String
  deviceCharacteristics : List (String × Catalog)
  authenticatedDevices : List String
deriving DecidableEq, Repr

/-- `self.device_characteristics.get(addr, {})`. -/
def getCatalog (st : CtrlState) (addr : String) : Catalog :=
  match st.deviceCharacteristics.lookup addr with
  | some c => c
  | none => []

/-- `self.authenticated_devices[addr] = True`. -/
def setAuth (st : CtrlState) (addr : String) : CtrlState :=
  { st with authenticatedDevices :=
      if st.authenticatedDevices.contains addr then st.authenticatedDevices
      else st.authenticatedDevices ++ [addr] }

/-- The `auth_methods` loop body of `authenticate_with_mesh`: run the methods
in list order, stop at the first that reports success, concatenating the
writes attempted so far. -/
def runAuthMethods (cat : Catalog) (name pwd : String) :
    List (Catalog → String → String → Bool × List WriteEv) → Bool × List WriteEv
  | [] => (false, [])
  | m :: ms =>
    let r := m cat name pwd
    if r.1 then r
    else
      let s := runAuthMethods cat name pwd ms
      (s.1, r.2 ++ s.2)

/-- `authenticate_with_mesh`: fails fast without a connection, otherwise runs
methods 1, 2, 3 in order; the first success marks the device authenticated. -/
def authenticateWithMesh (cryptoAvail : Bool)
    (E : List Nat → List Nat → List Nat) (wok : WOk)
    (st : CtrlState) (addr : String) (useSecondary : Bool) :
    Bool × CtrlState × List WriteEv :=
  if st.connected.contains addr then
    let creds := if useSecondary then secondaryCreds else primaryCreds
    let cat := getCatalog st addr
    let r := runAuthMethods cat creds.name creds.password
      [ fun c n p => authMethod1 wok c n p
      , fun c n p => authMethod2 wok c n p
      , fun c n p => authMethod3 cryptoAvail E wok c n p ]
    if r.1 then (true, setAuth st addr, r.2) else (false, st, r.2)
  else (false, st, [])

/-! ### Command dispatch (`_send_light_command`) -/

/-- `struct.pack('<H', n)`: two little-endian bytes. -/
def packU16le (n : Nat) : List Nat := [n % 256, n / 256 % 256]

/-- The `command_patterns` list: `<BHB>`, `<BBHB>`, `<BBBH>` layouts. -/
def commandPatterns (lightId : Nat) (turnOn : Bool) : List (List Nat) :=
  [ 0x01 :: packU16le lightId ++ [if turnOn then 0x01 else 0x00]
  , [0x02, 0x01] ++ packU16le lightId ++ [if turnOn then 0xFF else 0x00]
  , [0x03, if turnOn then 0x01 else 0x00, 0x00] ++ packU16le lightId ]

/-- The pattern-major command loop: for each pattern, try every writable
characteristic, stopping at the first write that does not raise. -/
def runPatterns (wok : WOk) (cat : Catalog) :
    List (List Nat) → Bool × List WriteEv
  | [] => (false, [])
  | p :: ps =>
    let r := loopEntries (fun e => writeSeq .cmd wok e.1 e.2.uuid [p]) cat
    if r.1 then r
    else
      let s := runPatterns wok cat ps
      (s.1, r.2 ++ s.2)

/-- The tail of `_send_light_command` after the authentication precondition:
the connection/catalog check, then the pattern loop.  `evs0` carries the
writes the authentication step already made. -/
def sendAfterAuth (wok : WOk) (st : CtrlState) (addr : String)
    (lightId : Nat) (turnOn : Bool) (evs0 : List WriteEv) :
    Bool × CtrlState × List WriteEv :=
  if st.connected.contains addr && !(getCatalog st addr).isEmpty then
    let r := runPatterns wok (getCatalog st addr) (commandPatterns lightId turnOn)
    (r.1, st, evs0 ++ r.2)
  else (false, st, evs0)

/-- `_send_light_command`: authenticate first when the address is not marked
authenticated (auth failure returns `False` immediately), then dispatch the
command patterns. -/
def sendLightCommand (cryptoAvail : Bool)
    (E : List Nat → List Nat → List Nat) (wok : WOk)
    (st : CtrlState) (addr : String) (lightId : Nat) (turnOn : Bool) :
    Bool × CtrlState × List WriteEv :=
  if st.authenticatedDevices.contains addr then
    sendAfterAuth wok st addr lightId turnOn []
  else
    match authenticateWithMesh cryptoAvail E wok st addr false with
    | (true, st1, evs) => sendAfterAuth wok st1 addr lightId turnOn evs
    | (false, st1, evs) => (false, st1, evs)

/-- `turn_on_light`. -/
def turnOnLight (cryptoAvail : Bool) (E : List Nat → List Nat → List Nat)
    (wok : WOk) (st : CtrlState) (addr : String) (lightId : Nat) :
    Bool × CtrlState × List WriteEv :=
  sendLightCommand cryptoAvail E wok st addr lightId true

/-- `turn_off_light`. -/
def turnOffLight (cryptoAvail : Bool) (E : List Nat → List Nat → List Nat)
    (wok : WOk) (st : CtrlState) (addr : String) (lightId : Nat) :
    Bool × CtrlState × List WriteEv :=
  sendLightCommand cryptoAvail E wok st addr lightId false

/-! ### Group / name store and JSON persistence -/

/-- The three persisted in-memory maps. -/
structure Store where
  deviceGroups : List (String × List String)
  deviceNames : List (String × String)
  groupNames : List (String × String)
deriving DecidableEq, Repr

/-- The JSON fragment `json.dump` / `json.load` exchange for this program. -/
inductive Json where
  | str : String → Json
  | arr : List Json → Json
  | obj : List (String × Json) → Json

/-- A groups map serialized: object of string arrays. -/
def encGroups (g : List (String × List String)) : Json :=
  .obj (g.map (fun p => (p.1, .arr (p.2.map .str))))

/-- A string-to-string map serialized. -/
def encStrMap (m : List (String × String)) : Json :=
  .obj (m.map (fun p => (p.1, .str p.2)))

/-- `save_data`: the full snapshot written on every call. -/
def saveData (st : Store) : Json :=
  .obj [ ("device_groups", encGroups st.deviceGroups)
       , ("device_names", encStrMap st.deviceNames)
       , ("group_names", encStrMap st.groupNames)
       , ("version", .str "1.0") ]

/-- `data.get(key, default)` on a parsed JSON object. -/
def jGet : List (String × Json) → String → Option Json
  | [], _ => none
  | (k, v) :: rest, key => if k == key then some v else jGet rest key

/-- Read back a string array (the member list of one group). -/
def decStrArr : Json → List String
  | .arr xs => xs.filterMap (fun j => match j with | .str s => some s | _ => none)
  | _ => []

/-- Read back a groups map. -/
def decGroups : Json → List (String × List String)
  | .obj l => l.map (fun p => (p.1, decStrArr p.2))
  | _ => []

/-- Read back a string-to-string map. -/
def decStrMap : Json → List (String × String)
  | .obj l => l.filterMap (fun p =>
      match p.2 with | .str s => some (p.1, s) | _ => none)
  | _ => []

/-- `load_data` applied to a parsed snapshot: each of the three maps is taken
from its key with an empty default. -/
def loadData (j : Json) : Store :=
  match j with
  | .obj fields =>
    { deviceGroups := match jGet fields "device_groups" with
        | some v => decGroups v
        | none => []
      deviceNames := match jGet fields "device_names" with
        | some v => decStrMap v
        | none => []
      groupNames := match jGet fields "group_names" with
        | some v => decStrMap v
        | none => [] }
  | _ => ⟨[], [], []⟩

/-! ### Store operations; each returns the list of snapshots it wrote -/

/-- `create_group`; the `uuid4`-generated id is a parameter. -/
def createGroup (st : Store) (groupId groupName : String) :
    String × Store × List Json :=
  let st' : Store :=
    { st with deviceGroups := dictInsert st.deviceGroups groupId []
              groupNames := dictInsert st.groupNames groupId groupName }
  (groupId, st', [saveData st'])

/-- `add_device_to_group`. -/
def addDeviceToGroup (st : Store) (groupId addr : String) :
    Bool × Store × List Json :=
  match st.deviceGroups.lookup groupId with
  | some members =>
    if members.contains addr then (false, st, [])
    else
      let st' : Store :=
        { st with deviceGroups := dictInsert st.deviceGroups groupId (members ++ [addr]) }
      (true, st', [saveData st'])
  | none => (false, st, [])

/-- `remove_device_from_group`; Python `list.remove` drops the first
occurrence. -/
def removeDeviceFromGroup (st : Store) (groupId addr : String) :
    Bool × Store × List Json :=
  match st.deviceGroups.lookup groupId with
  | some members =>
    if members.contains addr then
      let st' : Store :=
        { st with deviceGroups := dictInsert st.deviceGroups groupId (members.erase addr) }
      (true, st', [saveData st'])
    else (false, st, [])
  | none => (false, st, [])

/-- Python `del d[k]`. -/
def dictErase {α : Type} (d : List (String × α)) (k : String) :
    List (String × α) :=
  d.filter (fun p => !(p.1 == k))

/-- `rename_group`. -/
def renameGroup (st : Store) (groupId newName : String) :
    Bool × Store × List Json :=
  if (st.groupNames.lookup groupId).isSome then
    let st' : Store := { st with groupNames := dictInsert st.groupNames groupId newName }
    (true, st', [saveData st'])
  else (false, st, [])

/-- `delete_group`.  Only membership in `device_groups` is guarded; the
subsequent `del self.group_names[group_id]` is unguarded and raises
`KeyError` when the id is missing there — modelled as a `none` result — at
which point `device_groups` has already lost its entry and no snapshot is
written. -/
def deleteGroup (st : Store) (groupId : String) :
    Option Bool × Store × List Json :=
  if (st.deviceGroups.lookup groupId).isSome then
    let st1 : Store := { st with deviceGroups := dictErase st.deviceGroups groupId }
    if (st1.groupNames.lookup groupId).isSome then
      let st' : Store := { st1 with groupNames := dictErase st1.groupNames groupId }
      (some true, st', [saveData st'])
    else (none, st1, [])
  else (some false, st, [])

/-- `set_device_name`. -/
def setDeviceName (st : Store) (addr name : String) : Store × List Json :=
  let st' : Store := { st with deviceNames := dictInsert st.deviceNames addr name }
  (st', [saveData st'])

/-! ### `control_group` -/

/-- The member loop of `control_group`: each member gets a `turn_on_light` /
`turn_off_light` call (light id 1) on the threaded BLE state, and its success
flag is dict-assigned into the results. -/
def controlMembers (cryptoAvail : Bool) (E : List Nat → List Nat → List Nat)
    (wok : WOk) (turnOn : Bool) (acc : List (String × Bool)) :
    CtrlState → List String → List (String × Bool) × CtrlState × List WriteEv
  | st, [] => (acc, st, [])
  | st, a :: rest =>
    let s := sendLightCommand cryptoAvail E wok st a 1 turnOn
    let r := controlMembers cryptoAvail E wok turnOn (dictInsert acc a s.1) s.2.1 rest
    (r.1, r.2.1, s.2.2 ++ r.2.2)

/-- `control_group`: an unknown group id yields the empty result map. -/
def controlGroup (cryptoAvail : Bool) (E : List Nat → List Nat → List Nat)
    (wok : WOk) (st : CtrlState) (store : Store) (groupId : String)
    (turnOn : Bool) : List (String × Bool) × CtrlState × List WriteEv :=
  match store.deviceGroups.lookup groupId with
  | none => ([], st, [])
  | some members => controlMembers cryptoAvail E wok turnOn [] st members

/-! ### Specification-side order descriptions

These definitions state the iteration orders the specification describes
(first-success scan of an explicit attempt list); the theorems below prove the
code's nested loops equal to them. -/

/-- Attempt candidates in order, stopping at the first one `f` accepts; also
returns the candidates attempted. -/
def firstSuccessTrace {α : Type} (f : α → Bool) : List α → Bool × List α
  | [] => (false, [])
  | a :: rest =>
    if f a then (true, [a])
    else
      let r := firstSuccessTrace f rest
      (r.1, a :: r.2)

/-- The pattern-major, characteristic-minor candidate list of the command
dispatcher. -/
def patternMajorAttempts (cat : Catalog) (ps : List (List Nat)) :
    List (List Nat × (String × GattChar)) :=
  ps.flatMap (fun p => (writableEntries cat).map (fun e => (p, e)))

/-- Does one pattern/characteristic combination write without raising? -/
def cmdAttemptOk (w : WOk) (pe : List Nat × (String × GattChar)) : Bool :=
  w pe.2.2.uuid pe.1

/-- The write event a command attempt produces. -/
def cmdEvOf (pe : List Nat × (String × GattChar)) : WriteEv :=
  ⟨.cmd, pe.2.1, pe.2.2.uuid, pe.1⟩

/-- The strategy chain of the specification: plain, then framed, then
encrypted, stopping at the first success. -/
def authStrategyChain (cryptoAvail : Bool)
    (E : List Nat → List Nat → List Nat) (wok : WOk)
    (cat : Catalog) (name pwd : String) : Bool × List WriteEv :=
  let r1 := authMethod1 wok cat name pwd
  if r1.1 then r1
  else
    let r2 := authMethod2 wok cat name pwd
    if r2.1 then (true, r1.2 ++ r2.2)
    else
      let r3 := authMethod3 cryptoAvail E wok cat name pwd
      (r3.1, r1.2 ++ r2.2 ++ r3.2)

/-- The outcome `authenticate_with_mesh` should have on a connected address,
per the specification: run the chain, mark authenticated exactly on
success. -/
def authSpecOutcome (cryptoAvail : Bool)
    (E : List Nat → List Nat → List Nat) (wok : WOk)
    (st : CtrlState) (addr : String) (useSecondary : Bool) :
    Bool × CtrlState × List WriteEv :=
  let cr := if useSecondary then secondaryCreds else primaryCreds
  let r := authStrategyChain cryptoAvail E wok (getCatalog st addr) cr.name cr.password
  if r.1 then (true, setAuth st addr, r.2) else (false, st, r.2)

/-! ### Generic lemmas about the loop combinators -/

theorem firstSuccessTrace_false_trace {α : Type} (f : α → Bool) (l : List α)
    (h : (firstSuccessTrace f l).1 = false) : (firstSuccessTrace f l).2 = l := by
  induction l with
  | nil => rfl
  | cons a rest ih =>
    by_cases ha : f a
    · simp [firstSuccessTrace, ha] at h
    · simp only [firstSuccessTrace, ha, if_neg, Bool.false_eq_true, ite_false] at h ⊢
      simpa using ih h

theorem firstSuccessTrace_any {α : Type} (f : α → Bool) (l : List α) :
    (firstSuccessTrace f l).1 = l.any f := by
  induction l with
  | nil => rfl
  | cons a rest ih =>
    by_cases ha : f a <;> simp [firstSuccessTrace, ha, ih]

theorem firstSuccessTrace_append {α : Type} (f : α → Bool) (xs ys : List α) :
    firstSuccessTrace f (xs ++ ys) =
      (if (firstSuccessTrace f xs).1 then firstSuccessTrace f xs
       else ((firstSuccessTrace f ys).1,
             (firstSuccessTrace f xs).2 ++ (firstSuccessTrace f ys).2)) := by
  induction xs with
  | nil => simp [firstSuccessTrace]
  | cons x xs ih =>
    by_cases hx : f x
    · simp [firstSuccessTrace, hx]
    · by_cases h1 : (firstSuccessTrace f xs).1 <;>
        simp [firstSuccessTrace, hx, h1, ih, List.cons_append]

theorem firstSuccessTrace_map {α β : Type} (f : β → Bool) (g : α → β)
    (l : List α) :
    firstSuccessTrace f (l.map g) =
      ((firstSuccessTrace (fun a => f (g a)) l).1,
       (firstSuccessTrace (fun a => f (g a)) l).2.map g) := by
  induction l with
  | nil => rfl
  | cons a rest ih =>
    by_cases ha : f (g a) <;> simp [firstSuccessTrace, ha, ih]

theorem writeSeq_single (kind : WKind) (wok : WOk) (key uuid : String)
    (p : List Nat) :
    writeSeq kind wok key uuid [p] =
      (wok uuid p, [⟨kind, key, uuid, p⟩]) := by
  by_cases h : wok uuid p <;> simp [writeSeq, h]

/-- The single-payload write loop is a first-success scan over the writable
entries. -/
theorem loopEntries_single (kind : WKind) (wok : WOk) (p : List Nat)
    (cat : Catalog) :
    loopEntries (fun e => writeSeq kind wok e.1 e.2.uuid [p]) cat =
      ((firstSuccessTrace (fun e => wok e.2.uuid p) (writableEntries cat)).1,
       (firstSuccessTrace (fun e => wok e.2.uuid p) (writableEntries cat)).2.map
         (fun e => ⟨kind, e.1, e.2.uuid, p⟩)) := by
  induction cat with
  | nil => rfl
  | cons e rest ih =>
    by_cases hk : keyWritable e.1
    · by_cases hw : wok e.2.uuid p
      · simp [loopEntries, hk, writeSeq_single, hw, writableEntries,
          List.filter_cons, firstSuccessTrace]
      · simp only [writeSeq_single] at ih ⊢
        simp [loopEntries, hk, hw, writableEntries, List.filter_cons,
          firstSuccessTrace, ih]
    · simp only [loopEntries, hk, Bool.false_eq_true, ite_false,
        writableEntries, List.filter_cons] at ih ⊢
      simpa [hk] using ih

/-- The nested command loop equals the first-success scan of the
pattern-major candidate list. -/
theorem runPatterns_eq (wok : WOk) (cat : Catalog) (ps : List (List Nat)) :
    runPatterns wok cat ps =
      ((firstSuccessTrace (cmdAttemptOk wok) (patternMajorAttempts cat ps)).1,
       (firstSuccessTrace (cmdAttemptOk wok) (patternMajorAttempts cat ps)).2.map cmdEvOf) := by
  induction ps with
  | nil => rfl
  | cons p ps ih =>
    have hsplit : patternMajorAttempts cat (p :: ps) =
        (writableEntries cat).map (fun e => (p, e)) ++ patternMajorAttempts cat ps := by
      simp [patternMajorAttempts]
    have hA : firstSuccessTrace (cmdAttemptOk wok)
          ((writableEntries cat).map (fun e => (p, e))) =
        ((firstSuccessTrace (fun e => wok e.2.uuid p) (writableEntries cat)).1,
         (firstSuccessTrace (fun e => wok e.2.uuid p) (writableEntries cat)).2.map
           (fun e => (p, e))) :=
      firstSuccessTrace_map (cmdAttemptOk wok) (fun e => (p, e)) (writableEntries cat)
    have hone := loopEntries_single .cmd wok p cat
    have happ := firstSuccessTrace_append (cmdAttemptOk wok)
      ((writableEntries cat).map (fun e => (p, e))) (patternMajorAttempts cat ps)
    rw [hA] at happ
    by_cases h1 : (firstSuccessTrace (fun e => wok e.2.uuid p) (writableEntries cat)).1 = true
    · simp only [runPatterns, hone, h1, ite_true, hsplit, happ]
      simp only [List.map_map]
      rfl
    · simp only [runPatterns, hone, h1, Bool.false_eq_true, ite_false, hsplit, happ, ih]
      simp only [List.map_append, List.map_map]
      rfl

/-- Every write of a `writeSeq` call carries its kind, key, and uuid. -/
theorem writeSeq_fields (kind : WKind) (wok : WOk) (key uuid : String)
    (ps : List (List Nat)) :
    ∀ e ∈ (writeSeq kind wok key uuid ps).2,
      e.kind = kind ∧ e.charKey = key ∧ e.uuid = uuid := by
  induction ps with
  | nil => intro e he; cases he
  | cons p ps ih =>
    intro e he
    by_cases h : wok uuid p <;> simp [writeSeq, h] at he
    · rcases he with he | he
      · simp [he]
      · exact ih e he
    · simp [he]

/-- Every write of a `loopEntries` run comes from an attempt on some
`"writable"`-keyed catalog entry. -/
theorem loopEntries_mem (attempt : String × GattChar → Bool × List WriteEv)
    (cat : Catalog) :
    ∀ e ∈ (loopEntries attempt cat).2,
      ∃ en ∈ cat, keyWritable en.1 = true ∧ e ∈ (attempt en).2 := by
  induction cat with
  | nil => intro e he; cases he
  | cons en rest ih =>
    intro e he
    by_cases hk : keyWritable en.1
    · simp only [loopEntries, hk, ite_true] at he
      by_cases hs : (attempt en).1
      · simp only [hs, ite_true] at he
        exact ⟨en, by simp, hk, he⟩
      · simp only [hs, Bool.false_eq_true, ite_false, List.mem_append] at he
        rcases he with he | he
        · exact ⟨en, by simp, hk, he⟩
        · rcases ih e he with ⟨en', hin, hkw, hat⟩
          exact ⟨en', by simp [hin], hkw, hat⟩
    · simp only [loopEntries, hk, Bool.false_eq_true, ite_false] at he
      rcases ih e he with ⟨en', hin, hkw, hat⟩
      exact ⟨en', by simp [hin], hkw, hat⟩

/-- Every write of the method loop of `authenticate_with_mesh` comes from an
attempt of one of the methods. -/
theorem runAuthMethods_mem (cat : Catalog) (name pwd : String)
    (ms : List (Catalog → String → String → Bool × List WriteEv)) :
    ∀ e ∈ (runAuthMethods cat name pwd ms).2,
      ∃ m ∈ ms, e ∈ (m cat name pwd).2 := by
  induction ms with
  | nil => intro e he; cases he
  | cons m ms ih =>
    intro e he
    by_cases hs : (m cat name pwd).1
    · simp only [runAuthMethods, hs, ite_true] at he
      exact ⟨m, by simp, he⟩
    · simp only [runAuthMethods, hs, Bool.false_eq_true, ite_false,
        List.mem_append] at he
      rcases he with he | he
      · exact ⟨m, by simp, he⟩
      · rcases ih e he with ⟨m', hin, hat⟩
        exact ⟨m', by simp [hin], hat⟩

/-- Each of the three auth methods only writes auth-kind events, each from a
writable-keyed catalog entry, with matching key and uuid. -/
theorem authMethodTrace (cryptoAvail : Bool)
    (E : List Nat → List Nat → List Nat) (wok : WOk)
    (cat : Catalog) (name pwd : String)
    (m : Catalog → String → String → Bool × List WriteEv)
    (hm : m = (fun c n p => authMethod1 wok c n p) ∨
          m = (fun c n p => authMethod2 wok c n p) ∨
          m = (fun c n p => authMethod3 cryptoAvail E wok c n p)) :
    ∀ e ∈ (m cat name pwd).2,
      e.kind = WKind.auth ∧
      ∃ en ∈ cat, keyWritable en.1 = true ∧
        e.charKey = en.1 ∧ e.uuid = en.2.uuid := by
  intro e he
  have core : ∀ (att : String × GattChar → Bool × List WriteEv),
      (∀ en, ∀ ev ∈ (att en).2,
        ev.kind = WKind.auth ∧ ev.charKey = en.1 ∧ ev.uuid = en.2.uuid) →
      ∀ ev ∈ (loopEntries att cat).2,
        ev.kind = WKind.auth ∧
        ∃ en ∈ cat, keyWritable en.1 = true ∧
          ev.charKey = en.1 ∧ ev.uuid = en.2.uuid := by
    intro att hatt ev hev
    rcases loopEntries_mem att cat ev hev with ⟨en, hin, hkw, hat⟩
    rcases hatt en ev hat with ⟨h1, h2, h3⟩
    exact ⟨h1, en, hin, hkw, h2, h3⟩
  rcases hm with hm | hm | hm <;> subst hm
  · exact core _ (fun en ev hev => writeSeq_fields _ wok en.1 en.2.uuid _ ev hev) e he
  · exact core _ (fun en ev hev => writeSeq_fields _ wok en.1 en.2.uuid _ ev hev) e he
  · simp only [authMethod3] at he
    by_cases hc : cryptoAvail
    · simp only [hc, ite_true] at he
      exact core _ (fun en ev hev => writeSeq_fields _ wok en.1 en.2.uuid _ ev hev) e he
    · simp [hc] at he

/-- Every write `authenticate_with_mesh` makes is auth-kind, against a
writable-keyed entry of the device's catalog. -/
theorem authenticateWithMesh_trace (cryptoAvail : Bool)
    (E : List Nat → List Nat → List Nat) (wok : WOk)
    (st : CtrlState) (addr : String) (useSecondary : Bool) :
    ∀ e ∈ (authenticateWithMesh cryptoAvail E wok st addr useSecondary).2.2,
      e.kind = WKind.auth ∧
      ∃ en ∈ getCatalog st addr, keyWritable en.1 = true ∧
        e.charKey = en.1 ∧ e.uuid = en.2.uuid := by
  intro e he
  by_cases hc : st.connected.contains addr
  · simp only [authenticateWithMesh, hc, ite_true] at he
    set creds := if useSecondary then secondaryCreds else primaryCreds with hcr
    by_cases hr : (runAuthMethods (getCatalog st addr) creds.name creds.password
        [ fun c n p => authMethod1 wok c n p
        , fun c n p => authMethod2 wok c n p
        , fun c n p => authMethod3 cryptoAvail E wok c n p ]).1 <;>
      simp only [hr, ite_true, Bool.false_eq_true, ite_false] at he <;>
      · rcases runAuthMethods_mem _ _ _ _ e he with ⟨m, hm, hat⟩
        simp only [List.mem_cons, List.mem_singleton] at hm
        rcases hm with hm | hm | hm | hm
        · exact authMethodTrace cryptoAvail E wok _ _ _ m (Or.inl hm) e hat
        · exact authMethodTrace cryptoAvail E wok _ _ _ m (Or.inr (Or.inl hm)) e hat
        · exact authMethodTrace cryptoAvail E wok _ _ _ m (Or.inr (Or.inr hm)) e hat
        · cases hm
  · unfold authenticateWithMesh at he
    rw [if_neg hc] at he
    cases he

/-- Auth failure leaves the controller state untouched. -/
theorem authenticateWithMesh_fail_state (cryptoAvail : Bool)
    (E : List Nat → List Nat → List Nat) (wok : WOk)
    (st : CtrlState) (addr : String) (useSecondary : Bool)
    (h : (authenticateWithMesh cryptoAvail E wok st addr useSecondary).1 = false) :
    (authenticateWithMesh cryptoAvail E wok st addr useSecondary).2.1 = st := by
  unfold authenticateWithMesh at h ⊢
  by_cases hc : st.connected.contains addr = true
  · rw [if_pos hc] at h ⊢
    simp only [] at h ⊢
    generalize hR : runAuthMethods (getCatalog st addr)
        (if useSecondary then secondaryCreds else primaryCreds).name
        (if useSecondary then secondaryCreds else primaryCreds).password
        [ fun c n p => authMethod1 wok c n p
        , fun c n p => authMethod2 wok c n p
        , fun c n p => authMethod3 cryptoAvail E wok c n p ] = R at h ⊢
    by_cases hr : R.1 = true
    · rw [if_pos hr] at h; simp at h
    · rw [if_neg hr]
  · rw [if_neg hc]

/-! ### Unfolding lemmas for `_send_light_command` -/

theorem sendLightCommand_of_auth (cryptoAvail : Bool)
    (E : List Nat → List Nat → List Nat) (wok : WOk)
    (st : CtrlState) (addr : String) (lightId : Nat) (turnOn : Bool)
    (h : st.authenticatedDevices.contains addr = true) :
    sendLightCommand cryptoAvail E wok st addr lightId turnOn =
      sendAfterAuth wok st addr lightId turnOn [] := by
  unfold sendLightCommand
  rw [if_pos h]

theorem sendLightCommand_of_notauth_fail (cryptoAvail : Bool)
    (E : List Nat → List Nat → List Nat) (wok : WOk)
    (st st1 : CtrlState) (addr : String) (lightId : Nat) (turnOn : Bool)
    (evs : List WriteEv)
    (h : st.authenticatedDevices.contains addr = false)
    (hA : authenticateWithMesh cryptoAvail E wok st addr false = (false, st1, evs)) :
    sendLightCommand cryptoAvail E wok st addr lightId turnOn = (false, st1, evs) := by
  unfold sendLightCommand
  rw [if_neg (by rw [h]; exact Bool.false_ne_true), hA]

theorem sendLightCommand_of_notauth_succ (cryptoAvail : Bool)
    (E : List Nat → List Nat → List Nat) (wok : WOk)
    (st st1 : CtrlState) (addr : String) (lightId : Nat) (turnOn : Bool)
    (evs : List WriteEv)
    (h : st.authenticatedDevices.contains addr = false)
    (hA : authenticateWithMesh cryptoAvail E wok st addr false = (true, st1, evs)) :
    sendLightCommand cryptoAvail E wok st addr lightId turnOn =
      sendAfterAuth wok st1 addr lightId turnOn evs := by
  unfold sendLightCommand
  rw [if_neg (by rw [h]; exact Bool.false_ne_true), hA]

theorem sendAfterAuth_run (wok : WOk) (st : CtrlState) (addr : String)
    (lightId : Nat) (turnOn : Bool) (evs0 : List WriteEv)
    (h : (st.connected.contains addr && !(getCatalog st addr).isEmpty) = true) :
    sendAfterAuth wok st addr lightId turnOn evs0 =
      ((runPatterns wok (getCatalog st addr) (commandPatterns lightId turnOn)).1,
       st,
       evs0 ++ (runPatterns wok (getCatalog st addr) (commandPatterns lightId turnOn)).2) := by
  unfold sendAfterAuth
  rw [if_pos h]

theorem sendAfterAuth_skip (wok : WOk) (st : CtrlState) (addr : String)
    (lightId : Nat) (turnOn : Bool) (evs0 : List WriteEv)
    (h : ¬((st.connected.contains addr && !(getCatalog st addr).isEmpty) = true)) :
    sendAfterAuth wok st addr lightId turnOn evs0 = (false, st, evs0) := by
  unfold sendAfterAuth
  rw [if_neg h]

/-! ### Claim C2 -/

/-- The method loop over the three concrete strategies equals the explicit
first-success chain. -/
theorem runAuthMethods_three (cryptoAvail : Bool)
    (E : List Nat → List Nat → List Nat) (wok : WOk)
    (cat : Catalog) (name pwd : String) :
    runAuthMethods cat name pwd
      [ fun c n p => authMethod1 wok c n p
      , fun c n p => authMethod2 wok c n p
      , fun c n p => authMethod3 cryptoAvail E wok c n p ] =
    authStrategyChain cryptoAvail E wok cat name pwd := by
  simp only [runAuthMethods, authStrategyChain]
  by_cases h1 : (authMethod1 wok cat name pwd).1 = true
  · simp [h1]
  · by_cases h2 : (authMethod2 wok cat name pwd).1 = true
    · simp [h1, h2]
    · by_cases h3 : (authMethod3 cryptoAvail E wok cat name pwd).1 = true <;>
        simp [h1, h2, h3, List.append_assoc]

/-- Claim C2: on a connected address, `authenticate_with_mesh` runs the
strategies plain, framed, encrypted in that order, stops at the first
success, marks the address authenticated and reports success; when all three
are exhausted it reports failure and leaves the state (hence the auth state)
untouched.  Stated as equality with the specification-order outcome
`authSpecOutcome`, plus the fact that success marks the address. -/
theorem claim2_strategy_order (cryptoAvail : Bool)
    (E : List Nat → List Nat → List Nat) (wok : WOk)
    (st : CtrlState) (addr : String) (useSecondary : Bool)
    (h : st.connected.contains addr = true) :
    authenticateWithMesh cryptoAvail E wok st addr useSecondary =
      authSpecOutcome cryptoAvail E wok st addr useSecondary ∧
    (setAuth st addr).authenticatedDevices.contains addr = true := by
  constructor
  · unfold authenticateWithMesh authSpecOutcome
    rw [if_pos h]
    simp only [runAuthMethods_three]
  · by_cases hx : addr ∈ st.authenticatedDevices <;> simp [setAuth, hx]

/-- Witness for C2 at a connected address with an empty catalog: every
strategy fails, so the call reports failure and leaves the state unchanged. -/
theorem claim2_strategy_order_witness :
    authenticateWithMesh false (fun _ b => b) (fun _ _ => false)
        ⟨["D"], [], []⟩ "D" false =
      (false, (⟨["D"], [], []⟩ : CtrlState), []) := by
  have h := claim2_strategy_order false (fun _ b => b) (fun _ _ => false)
    ⟨["D"], [], []⟩ "D" false (by decide)
  exact h.1.trans (by decide)

/-! ### Claim C1 -/

/-- Claim C1: when the address is not marked authenticated,
`_send_light_command` invokes authentication first — its write trace starts
with the full authentication trace, which contains only auth-kind writes —
and when that authentication fails, the call returns `False` with no command
write attempted. -/
theorem claim1_auth_precondition (cryptoAvail : Bool)
    (E : List Nat → List Nat → List Nat) (wok : WOk)
    (st : CtrlState) (addr : String) (lightId : Nat) (turnOn : Bool)
    (h : st.authenticatedDevices.contains addr = false) :
    (∀ e ∈ (authenticateWithMesh cryptoAvail E wok st addr false).2.2,
        e.kind = WKind.auth) ∧
    (∃ tl, (sendLightCommand cryptoAvail E wok st addr lightId turnOn).2.2 =
        (authenticateWithMesh cryptoAvail E wok st addr false).2.2 ++ tl) ∧
    ((authenticateWithMesh cryptoAvail E wok st addr false).1 = false →
      sendLightCommand cryptoAvail E wok st addr lightId turnOn =
        (false, st, (authenticateWithMesh cryptoAvail E wok st addr false).2.2)) := by
  refine ⟨fun e he =>
    (authenticateWithMesh_trace cryptoAvail E wok st addr false e he).1, ?_⟩
  rcases hA : authenticateWithMesh cryptoAvail E wok st addr false with ⟨ok, st1, evs⟩
  cases ok
  · have hst : st1 = st := by
      have h2 := authenticateWithMesh_fail_state cryptoAvail E wok st addr false
        (by rw [hA])
      rw [hA] at h2
      exact h2
    have hs := sendLightCommand_of_notauth_fail cryptoAvail E wok st st1 addr
      lightId turnOn evs h hA
    exact ⟨⟨[], by rw [hs]; simp⟩, fun _ => by rw [hs, hst]⟩
  · have hs := sendLightCommand_of_notauth_succ cryptoAvail E wok st st1 addr
      lightId turnOn evs h hA
    refine ⟨?_, fun hfalse => by simp at hfalse⟩
    by_cases hcond : (st1.connected.contains addr && !(getCatalog st1 addr).isEmpty) = true
    · rw [hs, sendAfterAuth_run wok st1 addr lightId turnOn evs hcond]
      exact ⟨(runPatterns wok (getCatalog st1 addr) (commandPatterns lightId turnOn)).2, rfl⟩
    · rw [hs, sendAfterAuth_skip wok st1 addr lightId turnOn evs hcond]
      exact ⟨[], by simp⟩

/-- Witness for C1: a disconnected, unauthenticated address — authentication
fails with an empty trace and the command call reports failure with no
command write. -/
theorem claim1_auth_precondition_witness :
    sendLightCommand false (fun _ b => b) (fun _ _ => false)
        ⟨[], [], []⟩ "D" 1 true =
      (false, (⟨[], [], []⟩ : CtrlState), []) := by
  have h := claim1_auth_precondition false (fun _ b => b) (fun _ _ => false)
    ⟨[], [], []⟩ "D" 1 true (by decide)
  exact (h.2.2 (by decide)).trans (by decide)

/-! ### Claim C3 -/

/-- Claim C3: on an authenticated, connected address with a non-empty
catalog, command dispatch equals the first-success scan of the pattern-major,
characteristic-minor candidate list: it succeeds exactly when some
pattern/writable-characteristic write does not raise, attempts candidates in
that order stopping at the first success, and leaves the state unchanged. -/
theorem claim3_pattern_major_dispatch (cryptoAvail : Bool)
    (E : List Nat → List Nat → List Nat) (wok : WOk)
    (st : CtrlState) (addr : String) (lightId : Nat) (turnOn : Bool)
    (hauth : st.authenticatedDevices.contains addr = true)
    (hconn : st.connected.contains addr = true)
    (hcat : (getCatalog st addr).isEmpty = false) :
    sendLightCommand cryptoAvail E wok st addr lightId turnOn =
      ((patternMajorAttempts (getCatalog st addr) (commandPatterns lightId turnOn)).any
         (cmdAttemptOk wok),
       st,
       (firstSuccessTrace (cmdAttemptOk wok)
          (patternMajorAttempts (getCatalog st addr) (commandPatterns lightId turnOn))).2.map
         cmdEvOf) := by
  rw [sendLightCommand_of_auth cryptoAvail E wok st addr lightId turnOn hauth,
    sendAfterAuth_run wok st addr lightId turnOn [] (by rw [hconn, hcat]; rfl),
    runPatterns_eq, firstSuccessTrace_any]
  simp

/-- Witness for C3: one writable characteristic, all writes land — the first
pattern's first write succeeds and is the only command write. -/
theorem claim3_pattern_major_dispatch_witness :
    sendLightCommand false (fun _ b => b) (fun _ _ => true)
        ⟨["D"], [("D", discoverCharacteristics [⟨"u1", ["write"]⟩])], ["D"]⟩
        "D" 1 true =
      (true,
       (⟨["D"], [("D", discoverCharacteristics [⟨"u1", ["write"]⟩])], ["D"]⟩ : CtrlState),
       [⟨WKind.cmd, "writable_u1", "u1", [1, 1, 0, 1]⟩]) := by
  have h := claim3_pattern_major_dispatch false (fun _ b => b) (fun _ _ => true)
    ⟨["D"], [("D", discoverCharacteristics [⟨"u1", ["write"]⟩])], ["D"]⟩
    "D" 1 true (by decide) (by decide) (by decide)
  exact h.trans (by decide)

/-! ### Claim C4 -/

/-- The scan fold's invariant: the accumulated addresses stay duplicate-free,
and an address is accumulated exactly when some qualifying advertisement
carried it. -/
theorem scanFold_go (advs : List AdvEvent) :
    ∀ acc : List BLEDev, (acc.map BLEDev.address).Nodup →
      ((advs.foldl detectionCallback acc).map BLEDev.address).Nodup ∧
      ∀ addr : String,
        addr ∈ (advs.foldl detectionCallback acc).map BLEDev.address ↔
          addr ∈ acc.map BLEDev.address ∨
          ∃ a ∈ advs, isUrbarnDevice a = true ∧ a.device.address = addr := by
  induction advs with
  | nil => intro acc h; simp [h]
  | cons a rest ih =>
    intro acc h
    simp only [List.foldl_cons]
    by_cases ha : isUrbarnDevice a = true
    · by_cases hm : (acc.any fun d => d.address == a.device.address) = true
      · have hstep : detectionCallback acc a = acc := by
          unfold detectionCallback
          rw [if_pos ha, if_pos hm]
        rw [hstep]
        have hmem : a.device.address ∈ acc.map BLEDev.address := by
          rcases List.any_eq_true.mp hm with ⟨d, hd, hdb⟩
          exact List.mem_map.mpr ⟨d, hd, eq_of_beq hdb⟩
        rcases ih acc h with ⟨h1, h2⟩
        refine ⟨h1, fun addr => ?_⟩
        rw [h2 addr]
        constructor
        · rintro (hd | ⟨x, hx, hux, hxd⟩)
          · exact Or.inl hd
          · exact Or.inr ⟨x, List.mem_cons_of_mem a hx, hux, hxd⟩
        · rintro (hd | ⟨x, hx, hux, hxd⟩)
          · exact Or.inl hd
          · rcases List.mem_cons.mp hx with rfl | hx2
            · exact Or.inl (hxd ▸ hmem)
            · exact Or.inr ⟨x, hx2, hux, hxd⟩
      · have hstep : detectionCallback acc a = acc ++ [a.device] := by
          unfold detectionCallback
          rw [if_pos ha, if_neg hm]
        rw [hstep]
        have hnm : a.device.address ∉ acc.map BLEDev.address := by
          intro hmem
          rcases List.mem_map.mp hmem with ⟨d, hd, hde⟩
          exact hm (List.any_eq_true.mpr ⟨d, hd, by rw [hde]; exact beq_self_eq_true _⟩)
        have h' : ((acc ++ [a.device]).map BLEDev.address).Nodup := by
          rw [List.map_append]
          simp [List.nodup_append, h, hnm]
        rcases ih (acc ++ [a.device]) h' with ⟨h1, h2⟩
        refine ⟨h1, fun addr => ?_⟩
        rw [h2 addr]
        constructor
        · rintro (hd | ⟨x, hx, hux, hxd⟩)
          · rw [List.map_append] at hd
            rcases List.mem_append.mp hd with hd | hd
            · exact Or.inl hd
            · have hda : addr = a.device.address := by simpa using hd
              exact Or.inr ⟨a, List.mem_cons_self a rest, ha, hda.symm⟩
          · exact Or.inr ⟨x, List.mem_cons_of_mem a hx, hux, hxd⟩
        · rintro (hd | ⟨x, hx, hux, hxd⟩)
          · exact Or.inl (by rw [List.map_append]; exact List.mem_append.mpr (Or.inl hd))
          · rcases List.mem_cons.mp hx with rfl | hx2
            · refine Or.inl ?_
              rw [List.map_append]
              exact List.mem_append.mpr (Or.inr (by simp [hxd]))
            · exact Or.inr ⟨x, hx2, hux, hxd⟩
    · have hstep : detectionCallback acc a = acc := by
        unfold detectionCallback
        rw [if_neg ha]
      rw [hstep]
      rcases ih acc h with ⟨h1, h2⟩
      refine ⟨h1, fun addr => ?_⟩
      rw [h2 addr]
      constructor
      · rintro (hd | ⟨x, hx, hux, hxd⟩)
        · exact Or.inl hd
        · exact Or.inr ⟨x, List.mem_cons_of_mem a hx, hux, hxd⟩
      · rintro (hd | ⟨x, hx, hux, hxd⟩)
        · exact Or.inl hd
        · rcases List.mem_cons.mp hx with rfl | hx2
          · exact absurd hux ha
          · exact Or.inr ⟨x, hx2, hux, hxd⟩

/-- Claim C4: scan deduplication is keyed on the device address — an address
with at least one qualifying advertisement appears exactly once in the scan
result list, no matter how many qualifying advertisements arrive from it
during the window, and an address with none appears zero times. -/
theorem claim4_dedup_by_address (advs : List AdvEvent) (addr : String) :
    (scanFold advs).countP (fun d => d.address == addr) =
      if advs.any (fun a => isUrbarnDevice a && (a.device.address == addr))
      then 1 else 0 := by
  rcases scanFold_go advs [] (by simp) with ⟨h1, h2⟩
  have hcnt : ((scanFold advs).map BLEDev.address).count addr =
      (scanFold advs).countP (fun d => d.address == addr) := by
    show ((scanFold advs).map BLEDev.address).countP (· == addr) =
      (scanFold advs).countP (fun d => d.address == addr)
    rw [List.countP_map]
    rfl
  by_cases hq : (advs.any fun a => isUrbarnDevice a && (a.device.address == addr)) = true
  · rw [if_pos hq, ← hcnt]
    have hmem : addr ∈ (scanFold advs).map BLEDev.address := by
      rcases List.any_eq_true.mp hq with ⟨a, hamem, hab⟩
      rcases Bool.and_eq_true_iff.mp hab with ⟨hu, hadr⟩
      exact (h2 addr).mpr (Or.inr ⟨a, hamem, hu, eq_of_beq hadr⟩)
    exact List.count_eq_one_of_mem h1 hmem
  · rw [if_neg hq, ← hcnt, List.count_eq_zero]
    intro hmem
    rcases (h2 addr).mp hmem with hc | ⟨a, hamem, hu, hadr⟩
    · simp at hc
    · exact hq (List.any_eq_true.mpr ⟨a, hamem, by rw [hu, hadr]; simp⟩)


/-! ### Claim C5 -/

/-- A catalog with two writable characteristics, for the C5 scenario. -/
def twoWritableCat : Catalog :=
  [("writable_u1", ⟨"u1", ["write"]⟩), ("writable_u2", ⟨"u2", ["write"]⟩)]

/-- Claim C5 counterexample: with two writable characteristics and a
transport that accepts every write, the encrypted strategy performs exactly
one write — it does not write the ciphertext to every writable
characteristic, because it stops at the first write that does not raise. -/
theorem claim5_counterexample :
    (writableEntries twoWritableCat).length = 2 ∧
    (authMethod3 true (fun _ b => b) (fun _ _ => true)
        twoWritableCat "URBARN" "15102").2.length = 1 := by
  refine ⟨by decide, by decide⟩

/-- Claim C5 (amended): the encrypted strategy builds `"{name}:{password}"`,
pads it to the 16-byte block size (PKCS7) and CBC-encrypts it under the fixed
key and IV (the AES primitive abstracted as the block function `E`), then
writes that one ciphertext to the writable characteristics in catalog order,
stopping at the first write that does not raise; when the cryptography
library is unavailable it attempts no write and reports non-success. -/
theorem claim5_encrypted_strategy (cryptoAvail : Bool)
    (E : List Nat → List Nat → List Nat) (wok : WOk)
    (cat : Catalog) (name pwd : String) :
    authMethod3 cryptoAvail E wok cat name pwd =
      if cryptoAvail then
        ((firstSuccessTrace
            (fun e => wok e.2.uuid
              (cbcEncrypt E (AES_KEY.take 32) (AES_IV.take 16)
                (pkcs7Pad (utf8Bytes (name ++ ":" ++ pwd)))))
            (writableEntries cat)).1,
         (firstSuccessTrace
            (fun e => wok e.2.uuid
              (cbcEncrypt E (AES_KEY.take 32) (AES_IV.take 16)
                (pkcs7Pad (utf8Bytes (name ++ ":" ++ pwd)))))
            (writableEntries cat)).2.map
           (fun e => ⟨WKind.auth, e.1, e.2.uuid,
              cbcEncrypt E (AES_KEY.take 32) (AES_IV.take 16)
                (pkcs7Pad (utf8Bytes (name ++ ":" ++ pwd)))⟩))
      else (false, []) := by
  unfold authMethod3
  by_cases hc : cryptoAvail = true
  · rw [if_pos hc, if_pos hc]
    simp only [loopEntries_single]
  · rw [if_neg hc, if_neg hc]

/-! ### Claim C6 -/

theorem dictInsert_key_mem {α : Type} (d : List (String × α)) (k : String)
    (v : α) : ∃ b, (k, b) ∈ dictInsert d k v := by
  unfold dictInsert
  by_cases hany : (d.any fun p => p.1 == k) = true
  · rw [if_pos hany]
    rcases List.any_eq_true.mp hany with ⟨p, hp, hpk⟩
    refine ⟨v, ?_⟩
    have heq : (fun q => if q.1 == k then (k, v) else q) p = (k, v) := by
      simp [hpk]
    have hmem := List.mem_map_of_mem (fun q => if q.1 == k then (k, v) else q) hp
    rw [heq] at hmem
    exact hmem
  · rw [if_neg hany]
    exact ⟨v, by simp⟩

theorem dictInsert_key_preserve {α : Type} (d : List (String × α))
    (k : String) (v : α) (m : String) (hm : ∃ b, (m, b) ∈ d) :
    ∃ b, (m, b) ∈ dictInsert d k v := by
  by_cases hmk : m = k
  · subst hmk; exact dictInsert_key_mem d m v
  · rcases hm with ⟨b, hb⟩
    unfold dictInsert
    by_cases hany : (d.any fun p => p.1 == k) = true
    · rw [if_pos hany]
      refine ⟨b, ?_⟩
      have heq : (fun q => if q.1 == k then (k, v) else q) (m, b) = (m, b) := by
        simp [beq_eq_false_iff_ne.mpr hmk]
      have hmem := List.mem_map_of_mem (fun q => if q.1 == k then (k, v) else q) hb
      rw [heq] at hmem
      exact hmem
    · rw [if_neg hany]
      exact ⟨b, List.mem_append.mpr (Or.inl hb)⟩

theorem dictInsert_of_no_key {α : Type} (d : List (String × α)) (k : String)
    (v : α) (h : (d.any fun p => p.1 == k) = false) :
    dictInsert d k v = d ++ [(k, v)] := by
  unfold dictInsert
  rw [if_neg (by rw [h]; exact Bool.false_ne_true)]

/-- Every requested member ends up as a key of the result map. -/
theorem controlMembers_mem (cryptoAvail : Bool)
    (E : List Nat → List Nat → List Nat) (wok : WOk) (turnOn : Bool) :
    ∀ (ms : List String) (acc : List (String × Bool)) (st : CtrlState)
      (m : String), (m ∈ ms ∨ ∃ b, (m, b) ∈ acc) →
      ∃ b, (m, b) ∈ (controlMembers cryptoAvail E wok turnOn acc st ms).1 := by
  intro ms
  induction ms with
  | nil =>
    intro acc st m hm
    rcases hm with hm | hm
    · cases hm
    · simpa [controlMembers] using hm
  | cons a rest ih =>
    intro acc st m hm
    simp only [controlMembers]
    apply ih
    rcases hm with hm | hm
    · rcases List.mem_cons.mp hm with rfl | hm2
      · exact Or.inr (dictInsert_key_mem acc m _)
      · exact Or.inl hm2
    · exact Or.inr (dictInsert_key_preserve acc a _ m hm)

/-- With duplicate-free members whose addresses are fresh in the
accumulator, the result map lists exactly the accumulator keys followed by
the members, in order. -/
theorem controlMembers_fst (cryptoAvail : Bool)
    (E : List Nat → List Nat → List Nat) (wok : WOk) (turnOn : Bool) :
    ∀ (ms : List String), ms.Nodup →
      ∀ (acc : List (String × Bool)) (st : CtrlState),
        (∀ m ∈ ms, (acc.any fun p => p.1 == m) = false) →
        (controlMembers cryptoAvail E wok turnOn acc st ms).1.map Prod.fst =
          acc.map Prod.fst ++ ms := by
  intro ms
  induction ms with
  | nil => intro _ acc st _; simp [controlMembers]
  | cons a rest ih =>
    intro hnd acc st hdisj
    simp only [controlMembers]
    have hins : dictInsert acc a
        (sendLightCommand cryptoAvail E wok st a 1 turnOn).1 =
        acc ++ [(a, (sendLightCommand cryptoAvail E wok st a 1 turnOn).1)] :=
      dictInsert_of_no_key acc a _ (hdisj a (List.mem_cons_self a rest))
    rw [hins, ih (List.Nodup.of_cons hnd) _ _ ?_]
    · simp
    · intro m hmr
      have hma : a ≠ m := fun he => (List.Nodup.not_mem hnd) (he ▸ hmr)
      have hacc := hdisj m (List.mem_cons_of_mem a hmr)
      simp [List.any_append, hacc, beq_eq_false_iff_ne.mpr hma]

/-- Claim C6: `control_group` returns a per-member success map — an unknown
group id yields the empty map, every member of a known group appears in the
map (a failing member never aborts the iteration), and for duplicate-free
membership the map keys are exactly the members in order. -/
theorem claim6_control_group (cryptoAvail : Bool)
    (E : List Nat → List Nat → List Nat) (wok : WOk)
    (st : CtrlState) (store : Store) (gid : String) (turnOn : Bool) :
    (store.deviceGroups.lookup gid = none →
      controlGroup cryptoAvail E wok st store gid turnOn = ([], st, [])) ∧
    (∀ members, store.deviceGroups.lookup gid = some members →
      (∀ m ∈ members, ∃ b,
        (m, b) ∈ (controlGroup cryptoAvail E wok st store gid turnOn).1) ∧
      (members.Nodup →
        (controlGroup cryptoAvail E wok st store gid turnOn).1.map Prod.fst =
          members)) := by
  constructor
  · intro hn
    unfold controlGroup
    rw [hn]
  · intro members hs
    unfold controlGroup
    rw [hs]
    constructor
    · intro m hm
      exact controlMembers_mem cryptoAvail E wok turnOn members [] st m (Or.inl hm)
    · intro hnd
      simpa using controlMembers_fst cryptoAvail E wok turnOn members hnd [] st
        (by intro m _; rfl)

/-- Witness for C6: group `g` has members `A` (whose command write lands) and
`B` (whose writes all raise): the call returns `{A: true, B: false}`, with
both members attempted in order. -/
theorem claim6_control_group_witness :
    (controlGroup false (fun _ b => b) (fun u _ => u == "ua")
        ⟨["A", "B"],
         [("A", discoverCharacteristics [⟨"ua", ["write"]⟩]),
          ("B", discoverCharacteristics [⟨"ub", ["write"]⟩])],
         ["A", "B"]⟩
        ⟨[("g", ["A", "B"])], [], []⟩ "g" true).1.map Prod.fst = ["A", "B"] ∧
    (controlGroup false (fun _ b => b) (fun u _ => u == "ua")
        ⟨["A", "B"],
         [("A", discoverCharacteristics [⟨"ua", ["write"]⟩]),
          ("B", discoverCharacteristics [⟨"ub", ["write"]⟩])],
         ["A", "B"]⟩
        ⟨[("g", ["A", "B"])], [], []⟩ "g" true).1 = [("A", true), ("B", false)] := by
  refine ⟨((claim6_control_group false (fun _ b => b) (fun u _ => u == "ua")
    ⟨["A", "B"],
     [("A", discoverCharacteristics [⟨"ua", ["write"]⟩]),
      ("B", discoverCharacteristics [⟨"ub", ["write"]⟩])],
     ["A", "B"]⟩
    ⟨[("g", ["A", "B"])], [], []⟩ "g" true).2 ["A", "B"] rfl).2 (by decide),
    by decide⟩

/-! ### Claim C7 -/

theorem decStrArr_enc (l : List String) :
    decStrArr (Json.arr (l.map Json.str)) = l := by
  induction l with
  | nil => rfl
  | cons s rest ih =>
    simp only [decStrArr] at ih ⊢
    simp only [List.map_cons, List.filterMap_cons]
    rw [ih]

theorem dec_enc_groups (g : List (String × List String)) :
    decGroups (encGroups g) = g := by
  induction g with
  | nil => rfl
  | cons p rest ih =>
    simp only [encGroups, decGroups, List.map_cons, List.map_map] at ih ⊢
    rw [List.cons_eq_cons]
    constructor
    · rw [decStrArr_enc]
    · exact ih

theorem dec_enc_strMap (m : List (String × String)) :
    decStrMap (encStrMap m) = m := by
  induction m with
  | nil => rfl
  | cons p rest ih =>
    simp only [encStrMap, decStrMap, List.map_cons, List.filterMap_cons] at ih ⊢
    rw [ih]

/-- Claim C7: saving the three store maps as a snapshot and loading that
snapshot back reproduces exactly the same group membership, group-name, and
device-name maps. -/
theorem claim7_persistence_roundtrip (st : Store) :
    loadData (saveData st) = st := by
  obtain ⟨g, dn, gn⟩ := st
  have h : loadData (saveData ⟨g, dn, gn⟩) =
      ⟨decGroups (encGroups g), decStrMap (encStrMap dn),
       decStrMap (encStrMap gn)⟩ := rfl
  rw [h, dec_enc_groups, dec_enc_strMap, dec_enc_strMap]

/-! ### Claim C8 -/

/-- Claim C8 counterexample: `delete_group` on a store whose group id sits in
`device_groups` but not in `group_names` removes the `device_groups` entry
and then raises (`KeyError` from the unguarded `del`), so an in-memory map is
mutated with no snapshot written. -/
theorem claim8_counterexample :
    (deleteGroup ⟨[("g", [])], [], []⟩ "g").2.1 ≠
      (⟨[("g", [])], [], []⟩ : Store) ∧
    (deleteGroup ⟨[("g", [])], [], []⟩ "g").1 = none ∧
    (deleteGroup ⟨[("g", [])], [], []⟩ "g").2.2 = [] := by
  refine ⟨by decide, rfl, rfl⟩

/-- Claim C8 (amended): each store-mutating operation (`create_group`,
`add_device_to_group`, `remove_device_from_group`, `rename_group`,
`delete_group`, `set_device_name`) that changes any of the three in-memory
maps and returns without raising writes exactly one snapshot before
returning, and that snapshot is the full serialization of the entire
post-mutation store; the one exception is `delete_group` on an id present in
the membership map but missing from the group-name map, which deletes the
membership entry and raises before any snapshot is written. -/
theorem claim8_snapshot_on_mutation (st : Store)
    (gid gname addr dname nm : String) :
    ((createGroup st gid gname).2.1 ≠ st →
      (createGroup st gid gname).2.2 = [saveData (createGroup st gid gname).2.1]) ∧
    ((addDeviceToGroup st gid addr).2.1 ≠ st →
      (addDeviceToGroup st gid addr).2.2 =
        [saveData (addDeviceToGroup st gid addr).2.1]) ∧
    ((removeDeviceFromGroup st gid addr).2.1 ≠ st →
      (removeDeviceFromGroup st gid addr).2.2 =
        [saveData (removeDeviceFromGroup st gid addr).2.1]) ∧
    ((renameGroup st gid nm).2.1 ≠ st →
      (renameGroup st gid nm).2.2 = [saveData (renameGroup st gid nm).2.1]) ∧
    ((deleteGroup st gid).1 ≠ none →
      (deleteGroup st gid).2.1 ≠ st →
      (deleteGroup st gid).2.2 = [saveData (deleteGroup st gid).2.1]) ∧
    ((setDeviceName st addr dname).1 ≠ st →
      (setDeviceName st addr dname).2 =
        [saveData (setDeviceName st addr dname).1]) := by
  refine ⟨fun _ => rfl, ?_, ?_, ?_, ?_, fun _ => rfl⟩
  · intro hne
    unfold addDeviceToGroup at hne ⊢
    rcases hl : st.deviceGroups.lookup gid with _ | members
    · rw [hl] at hne
      exact absurd rfl hne
    · rw [hl] at hne
      dsimp only [] at hne ⊢
      by_cases hc : members.contains addr = true
      · rw [if_pos hc] at hne
        exact absurd rfl hne
      · rw [if_neg hc]
  · intro hne
    unfold removeDeviceFromGroup at hne ⊢
    rcases hl : st.deviceGroups.lookup gid with _ | members
    · rw [hl] at hne
      exact absurd rfl hne
    · rw [hl] at hne
      dsimp only [] at hne ⊢
      by_cases hc : members.contains addr = true
      · rw [if_pos hc]
      · rw [if_neg hc] at hne
        exact absurd rfl hne
  · intro hne
    unfold renameGroup at hne ⊢
    by_cases hr : (st.groupNames.lookup gid).isSome = true
    · rw [if_pos hr]
    · rw [if_neg hr] at hne
      exact absurd rfl hne
  · intro hcomp hne
    unfold deleteGroup at hcomp hne ⊢
    by_cases hr : (st.deviceGroups.lookup gid).isSome = true
    · rw [if_pos hr] at hcomp hne ⊢
      dsimp only [] at hcomp hne ⊢
      by_cases hn : (st.groupNames.lookup gid).isSome = true
      · rw [if_pos hn]
      · rw [if_neg hn] at hcomp
        exact absurd rfl hcomp
    · rw [if_neg hr] at hne
      exact absurd rfl hne

/-- Witness for C8: adding a fresh member to an existing group mutates the
store and writes exactly the one full snapshot of the new store. -/
theorem claim8_snapshot_on_mutation_witness :
    (addDeviceToGroup ⟨[("g", [])], [], [("g", "G")]⟩ "g" "A").2.2 =
      [saveData (addDeviceToGroup ⟨[("g", [])], [], [("g", "G")]⟩ "g" "A").2.1] :=
  (claim8_snapshot_on_mutation ⟨[("g", [])], [], [("g", "G")]⟩
    "g" "G" "A" "N" "M").2.1 (by decide)

/-! ### Claim C9 -/

/-- Claim C9 counterexample: adding an address to a group id that does not
exist — the group's membership does not already match the requested end
state (`A` is not a member), yet the operation neither mutates the store nor
writes a snapshot, contrary to "otherwise the membership list is mutated and
the snapshot is persisted". -/
theorem claim9_counterexample :
    (((⟨[], [], []⟩ : Store).deviceGroups.lookup "g").getD []).contains "A"
        = false ∧
    addDeviceToGroup ⟨[], [], []⟩ "g" "A" = (false, ⟨[], [], []⟩, []) :=
  ⟨rfl, rfl⟩

theorem lookup_map_replace {α : Type} (d : List (String × α)) (k : String)
    (v : α) (hany : (d.any fun p => p.1 == k) = true) :
    (d.map fun p => if p.1 == k then (k, v) else p).lookup k = some v := by
  induction d with
  | nil => simp at hany
  | cons p rest ih =>
    by_cases hp : (p.1 == k) = true
    · rw [List.map_cons, if_pos hp]
      simp [List.lookup]
    · have hp' : (p.1 == k) = false := Bool.eq_false_iff.mpr hp
      have hpk : (k == p.1) = false :=
        beq_eq_false_iff_ne.mpr fun he => (beq_eq_false_iff_ne.mp hp') he.symm
      have hany' : (rest.any fun p => p.1 == k) = true := by
        rw [List.any_cons] at hany
        rcases (Bool.or_eq_true _ _).mp hany with h | h
        · exact absurd h hp
        · exact h
      rw [List.map_cons, if_neg hp]
      simp only [List.lookup, hpk]
      exact ih hany'

theorem lookup_append_last {α : Type} (d : List (String × α)) (k : String)
    (v : α) (hnone : (d.any fun p => p.1 == k) = false) :
    (d ++ [(k, v)]).lookup k = some v := by
  induction d with
  | nil => simp [List.lookup]
  | cons p rest ih =>
    have h1 : (p.1 == k) = false ∧ (rest.any fun p => p.1 == k) = false := by
      rw [List.any_cons] at hnone
      exact Bool.or_eq_false_iff.mp hnone
    have hpk : (k == p.1) = false :=
      beq_eq_false_iff_ne.mpr fun he => (beq_eq_false_iff_ne.mp h1.1) he.symm
    simp [List.cons_append, List.lookup, hpk, ih h1.2]

theorem lookup_dictInsert {α : Type} (d : List (String × α)) (k : String)
    (v : α) : (dictInsert d k v).lookup k = some v := by
  unfold dictInsert
  by_cases hany : (d.any fun p => p.1 == k) = true
  · rw [if_pos hany]
    exact lookup_map_replace d k v hany
  · rw [if_neg hany]
    exact lookup_append_last d k v (Bool.eq_false_iff.mpr hany)

/-- Claim C9 (amended): for an existing group, `add_device_to_group` and
`remove_device_from_group` are failing no-ops without mutation or snapshot
when membership already matches the requested end state, and otherwise
mutate the group's membership list and persist exactly one snapshot; a
nonexistent group makes both operations failing no-ops with no mutation and
no snapshot. -/
theorem claim9_membership_noop (st : Store) (gid addr : String) :
    (st.deviceGroups.lookup gid = none →
      addDeviceToGroup st gid addr = (false, st, []) ∧
      removeDeviceFromGroup st gid addr = (false, st, [])) ∧
    (∀ members, st.deviceGroups.lookup gid = some members →
      (members.contains addr = true →
        addDeviceToGroup st gid addr = (false, st, []) ∧
        ∃ st', removeDeviceFromGroup st gid addr = (true, st', [saveData st']) ∧
          st'.deviceGroups.lookup gid = some (members.erase addr)) ∧
      (members.contains addr = false →
        removeDeviceFromGroup st gid addr = (false, st, []) ∧
        ∃ st', addDeviceToGroup st gid addr = (true, st', [saveData st']) ∧
          st'.deviceGroups.lookup gid = some (members ++ [addr]))) := by
  constructor
  · intro hl
    constructor
    · unfold addDeviceToGroup
      rw [hl]
    · unfold removeDeviceFromGroup
      rw [hl]
  · intro members hl
    constructor
    · intro hc
      refine ⟨?_, ?_⟩
      · unfold addDeviceToGroup
        rw [hl]
        dsimp only []
        rw [if_pos hc]
      · refine ⟨{ st with deviceGroups := dictInsert st.deviceGroups gid (members.erase addr) }, ?_, ?_⟩
        · unfold removeDeviceFromGroup
          rw [hl]
          dsimp only []
          rw [if_pos hc]
        · exact lookup_dictInsert st.deviceGroups gid (members.erase addr)
    · intro hc
      refine ⟨?_, ?_⟩
      · unfold removeDeviceFromGroup
        rw [hl]
        dsimp only []
        rw [if_neg (by rw [hc]; exact Bool.false_ne_true)]
      · refine ⟨{ st with deviceGroups := dictInsert st.deviceGroups gid (members ++ [addr]) }, ?_, ?_⟩
        · unfold addDeviceToGroup
          rw [hl]
          dsimp only []
          rw [if_neg (by rw [hc]; exact Bool.false_ne_true)]
        · exact lookup_dictInsert st.deviceGroups gid (members ++ [addr])

/-- Witness for C9 (amended): on a group `g` containing exactly `A`, adding
`A` again is a failing no-op without a snapshot, and removing `A` mutates the
membership to the empty list. -/
theorem claim9_membership_noop_witness :
    addDeviceToGroup ⟨[("g", ["A"])], [], []⟩ "g" "A" =
      (false, (⟨[("g", ["A"])], [], []⟩ : Store), []) ∧
    (removeDeviceFromGroup ⟨[("g", ["A"])], [], []⟩ "g"
        "A").2.1.deviceGroups.lookup "g" = some [] := by
  have h := (claim9_membership_noop ⟨[("g", ["A"])], [], []⟩ "g" "A").2
    ["A"] rfl
  refine ⟨(h.1 (by decide)).1, ?_⟩
  rcases (h.1 (by decide)).2 with ⟨st', hst', hlk⟩
  rw [hst']
  exact hlk

/-! ### Claim C10 -/

theorem startsWithCh_self_append (p l : List Char) :
    startsWithCh p (p ++ l) = true := by
  induction p with
  | nil => rfl
  | cons a as ih => simp [startsWithCh, ih]

theorem containsSub_of_startsWith (p l : List Char)
    (h : startsWithCh p l = true) : containsSub p l = true := by
  cases l with
  | nil => simpa [containsSub] using h
  | cons b bs => simp [containsSub, h]

/-- Every `"writable_"`-prefixed key passes the `"writable" in key` filter. -/
theorem keyWritable_writableKey (u : String) :
    keyWritable ("writable_" ++ u) = true := by
  have hd : ("writable_" ++ u).data = "writable".data ++ ('_' :: u.data) := rfl
  unfold keyWritable
  rw [hd]
  exact containsSub_of_startsWith _ _ (startsWithCh_self_append _ _)

/-- A substring whose first character never occurs in the front part of an
append can only be found in the back part. -/
theorem containsSub_head_filter (c : Char) (p : List Char) :
    ∀ (a b : List Char), (∀ x ∈ a, x ≠ c) →
      containsSub (c :: p) (a ++ b) = containsSub (c :: p) b := by
  intro a
  induction a with
  | nil => intro b _; rfl
  | cons x a' ih =>
    intro b ha
    have hxc : (c == x) = false :=
      beq_eq_false_iff_ne.mpr fun he => (ha x (List.mem_cons_self x a')) he.symm
    simp only [List.cons_append, containsSub, startsWithCh, hxc,
      Bool.false_and, Bool.false_or]
    exact ih b fun y hy => ha y (List.mem_cons_of_mem x hy)

/-- A `"notify_"`-prefixed key over a uuid with no `"writable"` substring
fails the writable filter. -/
theorem keyWritable_notifyKey (u : String)
    (hu : containsSub ("writable".data) u.data = false) :
    keyWritable ("notify_" ++ u) = false := by
  have hd : ("notify_" ++ u).data = "notify_".data ++ u.data := rfl
  have hpat : ("writable".data : List Char) =
      'w' :: "ritable".data := rfl
  unfold keyWritable
  rw [hd, hpat]
  rw [containsSub_head_filter 'w' ("ritable".data) ("notify_".data) u.data
    (by decide)]
  rw [← hpat]
  exact hu

/-- The shape of one catalog entry produced for characteristic `c`. -/
def keyShape (p : String × GattChar) (c : GattChar) : Prop :=
  p.2 = c ∧
  (p.1 = c.uuid ∨
   (p.1 = "writable_" ++ c.uuid ∧ hasWriteProp c = true) ∨
   (p.1 = "notify_" ++ c.uuid ∧ hasNotifyProp c = true))

theorem mem_dictInsert {α : Type} (d : List (String × α)) (k : String)
    (v : α) (p : String × α) (h : p ∈ dictInsert d k v) :
    p ∈ d ∨ p = (k, v) := by
  unfold dictInsert at h
  by_cases hany : (d.any fun q => q.1 == k) = true
  · rw [if_pos hany] at h
    rcases List.mem_map.mp h with ⟨q, hq, hfq⟩
    by_cases hqk : (q.1 == k) = true
    · right
      rw [if_pos hqk] at hfq
      exact hfq.symm
    · left
      rw [if_neg hqk] at hfq
      exact hfq ▸ hq
  · rw [if_neg hany] at h
    rcases List.mem_append.mp h with h | h
    · exact Or.inl h
    · right
      simpa using h

theorem classifyMesh_mem (d : Catalog) (c : GattChar) (p : String × GattChar)
    (h : p ∈ classifyMesh d c) : p ∈ d ∨ p = (c.uuid, c) := by
  unfold classifyMesh at h
  split at h
  · exact mem_dictInsert _ _ _ _ h
  · exact Or.inl h

theorem classifyWrite_mem (d : Catalog) (c : GattChar) (p : String × GattChar)
    (h : p ∈ classifyWrite d c) :
    p ∈ d ∨ (p = ("writable_" ++ c.uuid, c) ∧ hasWriteProp c = true) := by
  unfold classifyWrite at h
  split at h
  case isTrue hw =>
    rcases mem_dictInsert _ _ _ _ h with h | h
    · exact Or.inl h
    · exact Or.inr ⟨h, hw⟩
  case isFalse hw => exact Or.inl h

theorem classifyNotify_mem (d : Catalog) (c : GattChar) (p : String × GattChar)
    (h : p ∈ classifyNotify d c) :
    p ∈ d ∨ (p = ("notify_" ++ c.uuid, c) ∧ hasNotifyProp c = true) := by
  unfold classifyNotify at h
  split at h
  case isTrue hw =>
    rcases mem_dictInsert _ _ _ _ h with h | h
    · exact Or.inl h
    · exact Or.inr ⟨h, hw⟩
  case isFalse hw => exact Or.inl h

theorem classifyChar_shape (d : Catalog) (c : GattChar) (p : String × GattChar)
    (hp : p ∈ classifyChar d c) : p ∈ d ∨ keyShape p c := by
  unfold classifyChar at hp
  rcases classifyNotify_mem _ _ _ hp with hp | ⟨hpe, hn⟩
  · rcases classifyWrite_mem _ _ _ hp with hp | ⟨hpe, hw⟩
    · rcases classifyMesh_mem _ _ _ hp with hp | hpe
      · exact Or.inl hp
      · exact Or.inr ⟨by rw [hpe], Or.inl (by rw [hpe])⟩
    · exact Or.inr ⟨by rw [hpe], Or.inr (Or.inl ⟨by rw [hpe], hw⟩)⟩
  · exact Or.inr ⟨by rw [hpe], Or.inr (Or.inr ⟨by rw [hpe], hn⟩)⟩

/-- Every entry of a discovered catalog was produced, with one of the three
key shapes, from one of the discovered characteristics. -/
theorem discover_shape (chars : List GattChar) :
    ∀ p ∈ discoverCharacteristics chars, ∃ c ∈ chars, keyShape p c := by
  unfold discoverCharacteristics
  suffices h : ∀ (cs : List GattChar) (acc : Catalog),
      ∀ p ∈ cs.foldl classifyChar acc,
        p ∈ acc ∨ ∃ c ∈ cs, keyShape p c by
    intro p hp
    rcases h chars [] p hp with hp | hp
    · cases hp
    · exact hp
  intro cs
  induction cs with
  | nil => intro acc p hp; exact Or.inl hp
  | cons c cs' ih =>
    intro acc p hp
    rcases ih (classifyChar acc c) p hp with hp | ⟨c', hc', hsh⟩
    · rcases classifyChar_shape acc c p hp with hp | hsh
      · exact Or.inl hp
      · exact Or.inr ⟨c, List.mem_cons_self c cs', hsh⟩
    · exact Or.inr ⟨c', List.mem_cons_of_mem c hc', hsh⟩

/-- In a catalog discovered from uuids that never contain the string
`"writable"`, the entries passing the writable filter are exactly the
`"writable_"`-keyed entries of write-capable characteristics. -/
theorem discovered_writable_key (chars : List GattChar)
    (hu : ∀ ch ∈ chars, containsSub ("writable".data) ch.uuid.data = false)
    (p : String × GattChar) (hp : p ∈ discoverCharacteristics chars)
    (hkw : keyWritable p.1 = true) :
    ∃ c ∈ chars, p.1 = "writable_" ++ c.uuid ∧ p.2 = c ∧ hasWriteProp c = true := by
  rcases discover_shape chars p hp with ⟨c, hc, hp2, hsh⟩
  rcases hsh with h | h | h
  · exfalso
    rw [h] at hkw
    unfold keyWritable at hkw
    rw [hu c hc] at hkw
    cases hkw
  · exact ⟨c, hc, h.1, hp2, h.2⟩
  · exfalso
    rw [h.1] at hkw
    rw [keyWritable_notifyKey c.uuid (hu c hc)] at hkw
    cases hkw

/-- Every write of the command-pattern loop is a cmd-kind write against a
writable-keyed catalog entry. -/
theorem runPatterns_trace (wok : WOk) (cat : Catalog) (ps : List (List Nat)) :
    ∀ e ∈ (runPatterns wok cat ps).2,
      ∃ en ∈ cat, keyWritable en.1 = true ∧
        e.kind = WKind.cmd ∧ e.charKey = en.1 ∧ e.uuid = en.2.uuid := by
  induction ps with
  | nil => intro e he; cases he
  | cons p ps ih =>
    intro e he
    have hloop : ∀ ev ∈ (loopEntries
        (fun en => writeSeq WKind.cmd wok en.1 en.2.uuid [p]) cat).2,
        ∃ en ∈ cat, keyWritable en.1 = true ∧
          ev.kind = WKind.cmd ∧ ev.charKey = en.1 ∧ ev.uuid = en.2.uuid := by
      intro ev hev
      rcases loopEntries_mem _ cat ev hev with ⟨en, hin, hkw, hat⟩
      rcases writeSeq_fields WKind.cmd wok en.1 en.2.uuid [p] ev hat with ⟨h1, h2, h3⟩
      exact ⟨en, hin, hkw, h1, h2, h3⟩
    by_cases hr : (loopEntries
        (fun en => writeSeq WKind.cmd wok en.1 en.2.uuid [p]) cat).1 = true
    · simp only [runPatterns, hr, ite_true] at he
      exact hloop e he
    · simp only [runPatterns, hr, Bool.false_eq_true, ite_false,
        List.mem_append] at he
      rcases he with he | he
      · exact hloop e he
      · exact ih e he

/-- Every write of the post-authentication command phase either came with the
carried-in prefix or targets a writable-keyed entry of the catalog. -/
theorem sendAfterAuth_trace (wok : WOk) (st : CtrlState) (addr : String)
    (lightId : Nat) (turnOn : Bool) (evs0 : List WriteEv) :
    ∀ e ∈ (sendAfterAuth wok st addr lightId turnOn evs0).2.2,
      e ∈ evs0 ∨ ∃ en ∈ getCatalog st addr, keyWritable en.1 = true ∧
        e.kind = WKind.cmd ∧ e.charKey = en.1 ∧ e.uuid = en.2.uuid := by
  intro e he
  unfold sendAfterAuth at he
  split at he
  · rcases List.mem_append.mp he with h | h
    · exact Or.inl h
    · exact Or.inr (runPatterns_trace wok _ _ e h)
  · exact Or.inl he

/-- Auth success sets exactly the authenticated mark. -/
theorem authenticateWithMesh_succ_state (cryptoAvail : Bool)
    (E : List Nat → List Nat → List Nat) (wok : WOk)
    (st : CtrlState) (addr : String) (useSecondary : Bool)
    (h : (authenticateWithMesh cryptoAvail E wok st addr useSecondary).1 = true) :
    (authenticateWithMesh cryptoAvail E wok st addr useSecondary).2.1 =
      setAuth st addr := by
  unfold authenticateWithMesh at h ⊢
  by_cases hc : st.connected.contains addr = true
  · rw [if_pos hc] at h ⊢
    simp only [] at h ⊢
    generalize hR : runAuthMethods (getCatalog st addr)
        (if useSecondary then secondaryCreds else primaryCreds).name
        (if useSecondary then secondaryCreds else primaryCreds).password
        [ fun c n p => authMethod1 wok c n p
        , fun c n p => authMethod2 wok c n p
        , fun c n p => authMethod3 cryptoAvail E wok c n p ] = R at h ⊢
    by_cases hr : R.1 = true
    · rw [if_pos hr]
    · rw [if_neg hr] at h
      simp at h
  · rw [if_neg hc] at h
    simp at h

/-- `setAuth` does not change the characteristic catalog. -/
theorem getCatalog_setAuth (st : CtrlState) (addr a : String) :
    getCatalog (setAuth st addr) a = getCatalog st a := rfl

/-- Every write of `_send_light_command` targets a writable-keyed entry of
the device's catalog (auth-phase and command-phase writes alike). -/
theorem sendLightCommand_trace (cryptoAvail : Bool)
    (E : List Nat → List Nat → List Nat) (wok : WOk)
    (st : CtrlState) (addr : String) (lightId : Nat) (turnOn : Bool) :
    ∀ e ∈ (sendLightCommand cryptoAvail E wok st addr lightId turnOn).2.2,
      ∃ en ∈ getCatalog st addr, keyWritable en.1 = true ∧
        e.charKey = en.1 ∧ e.uuid = en.2.uuid := by
  intro e he
  by_cases hA : st.authenticatedDevices.contains addr = true
  · rw [sendLightCommand_of_auth cryptoAvail E wok st addr lightId turnOn hA] at he
    rcases sendAfterAuth_trace wok st addr lightId turnOn [] e he with h | ⟨en, hin, hkw, _, h2, h3⟩
    · cases h
    · exact ⟨en, hin, hkw, h2, h3⟩
  · have hA' : st.authenticatedDevices.contains addr = false := Bool.eq_false_iff.mpr hA
    rcases hAu : authenticateWithMesh cryptoAvail E wok st addr false with ⟨ok, st1, evs⟩
    have hauthtr : ∀ ev ∈ evs, ∃ en ∈ getCatalog st addr, keyWritable en.1 = true ∧
        ev.charKey = en.1 ∧ ev.uuid = en.2.uuid := by
      intro ev hev
      have h0 := authenticateWithMesh_trace cryptoAvail E wok st addr false ev
        (by rw [hAu]; exact hev)
      exact h0.2
    cases ok
    · rw [sendLightCommand_of_notauth_fail cryptoAvail E wok st st1 addr
        lightId turnOn evs hA' hAu] at he
      exact hauthtr e he
    · have hst1 : st1 = setAuth st addr := by
        have h1 := authenticateWithMesh_succ_state cryptoAvail E wok st addr false
          (by rw [hAu])
        rw [hAu] at h1
        exact h1
      rw [sendLightCommand_of_notauth_succ cryptoAvail E wok st st1 addr
        lightId turnOn evs hA' hAu] at he
      rcases sendAfterAuth_trace wok st1 addr lightId turnOn evs e he with h | ⟨en, hin, hkw, _, h2, h3⟩
      · exact hauthtr e h
      · rw [hst1, getCatalog_setAuth] at hin
        exact ⟨en, hin, hkw, h2, h3⟩

/-- Claim C10: with a catalog discovered from characteristics whose uuids
never contain the string `"writable"`, neither authentication nor command
dispatch ever writes to a characteristic that was not classified writable:
every transport write of `authenticate_with_mesh` and of
`_send_light_command` targets a `"writable_"`-keyed catalog entry of a
write-capable characteristic — entries stored only under the mesh or notify
keys are never written. -/
theorem claim10_only_writable_written (cryptoAvail : Bool)
    (E : List Nat → List Nat → List Nat) (wok : WOk)
    (st : CtrlState) (addr : String) (useSecondary : Bool)
    (lightId : Nat) (turnOn : Bool) (chars : List GattChar)
    (hcat : getCatalog st addr = discoverCharacteristics chars)
    (hu : ∀ ch ∈ chars, containsSub ("writable".data) ch.uuid.data = false) :
    (∀ e ∈ (authenticateWithMesh cryptoAvail E wok st addr useSecondary).2.2,
      ∃ c ∈ chars, e.charKey = "writable_" ++ c.uuid ∧ e.uuid = c.uuid ∧
        hasWriteProp c = true) ∧
    (∀ e ∈ (sendLightCommand cryptoAvail E wok st addr lightId turnOn).2.2,
      ∃ c ∈ chars, e.charKey = "writable_" ++ c.uuid ∧ e.uuid = c.uuid ∧
        hasWriteProp c = true) := by
  have step : ∀ (en : String × GattChar), en ∈ getCatalog st addr →
      keyWritable en.1 = true →
      ∃ c ∈ chars, en.1 = "writable_" ++ c.uuid ∧ en.2 = c ∧
        hasWriteProp c = true := by
    intro en hin hkw
    rw [hcat] at hin
    exact discovered_writable_key chars hu en hin hkw
  constructor
  · intro e he
    rcases authenticateWithMesh_trace cryptoAvail E wok st addr useSecondary e he
      with ⟨_, en, hin, hkw, h2, h3⟩
    rcases step en hin hkw with ⟨c, hc, hk, he2, hw⟩
    exact ⟨c, hc, by rw [h2, hk], by rw [h3, he2], hw⟩
  · intro e he
    rcases sendLightCommand_trace cryptoAvail E wok st addr lightId turnOn e he
      with ⟨en, hin, hkw, h2, h3⟩
    rcases step en hin hkw with ⟨c, hc, hk, he2, hw⟩
    exact ⟨c, hc, by rw [h2, hk], by rw [h3, he2], hw⟩

/-- Witness for C10: a catalog discovered from one writable, notifiable
characteristic — every write of the dispatch call goes to its
`"writable_"`-prefixed key. -/
theorem claim10_only_writable_written_witness :
    ((sendLightCommand true (fun _ b => b) (fun _ _ => true)
        ⟨["D"], [("D", discoverCharacteristics [⟨"u1", ["write", "notify"]⟩])], []⟩
        "D" 1 true).2.2.all (fun e => e.charKey == "writable_u1")) = true := by
  rw [List.all_eq_true]
  intro e he
  have h := (claim10_only_writable_written true (fun _ b => b) (fun _ _ => true)
    ⟨["D"], [("D", discoverCharacteristics [⟨"u1", ["write", "notify"]⟩])], []⟩
    "D" false 1 true [⟨"u1", ["write", "notify"]⟩] rfl (by decide)).2 e he
  rcases h with ⟨c, hc, hk, _, _⟩
  have hc1 : c = (⟨"u1", ["write", "notify"]⟩ : GattChar) := by
    simpa using hc
  rw [hk, hc1]
  decide

end Fubarn
